import Mathlib

/-!
# Expedition Revenue Studio — verification of the forecasting and
# classification core

A shallow embedding of the analytics pipeline: the booking-curve builder and
pace analyzer (`analysis_notebook.py`), the completion-ratio estimator and
occupancy forecaster (`forecasting.py`), and the classifier
(`classification.py`).  Python floats are modelled as exact rationals (`ℚ`);
`round(x, n)` is modelled by `roundTo`, dates as integer day numbers, and
`pandas` tables as lists of records.
-/

namespace RevenueStudio

/-- Python `round(x, n)` to `n` decimal places.  (Python rounds a tie
half-to-even; here a tie rounds up, and no statement below depends on the tie
direction.) -/
def roundTo (n : ℕ) (x : ℚ) : ℚ := ((round (x * 10 ^ n) : ℤ) : ℚ) / 10 ^ n

/-- A `pandas` column `.mean()`: sum over length.  Callers guard the empty
case, where `pandas` yields `NaN`, by an explicit emptiness test. -/
def listMean (l : List ℚ) : ℚ := l.sum / l.length

/-- A row of `sailings.csv` (schema in `generate_data.py`). -/
structure Sailing where
  sailing_id : String
  ship_name : String
  itinerary_region : String
  itinerary_name : String
  departure_date : ℤ
  duration_days : ℕ
  capacity_cabins : ℕ
  cabin_mix_class : String
  base_fare_per_person : ℚ
deriving DecidableEq

/-- A row of `bookings.csv` (schema in `generate_data.py`). -/
structure Booking where
  booking_id : String
  sailing_id : String
  booking_date : ℤ
  days_to_departure : ℕ
  channel : String
  party_size : ℕ
  fare_paid_per_person : ℚ
  discount_flag : Bool
  price_version : String
  competitor_price_index : ℚ
  booking_segment : String
deriving DecidableEq

/-- `df[df['sailing_id'] == sailing_id]` on the merged bookings table. -/
def bookingsFor (bookings : List Booking) (sid : String) : List Booking :=
  bookings.filter (fun b => b.sailing_id == sid)

/-- `(cabins / capacity) * 100`. -/
def occupancyPct (cabins capacity : ℕ) : ℚ := ((cabins : ℚ) / capacity) * 100

/-! ## Completion Ratio Estimator (`forecasting.py`, STEP 1) -/

/-- The anchor checkpoints `[180, 120, 90, 60, 30]` days before departure. -/
def anchorPoints : List ℕ := [180, 120, 90, 60, 30]

/-- Bookings received at or before `departure_date - anchor_days` days. -/
def cabinsAtAnchor (sb : List Booking) (departure : ℤ) (anchorDays : ℕ) : ℕ :=
  (sb.filter (fun b => b.booking_date ≤ departure - (anchorDays : ℤ))).length

/-- One row appended to `completion_ratios` in `forecasting.py`. -/
structure CompletionRow where
  sailing_id : String
  region : String
  departure_date : ℤ
  anchor_days_out : ℕ
  occupancy_at_anchor : ℚ
  final_occupancy : ℚ
  completion_ratio : Option ℚ
deriving DecidableEq

/-- The completion-ratio row for one historical sailing at one anchor:
ratio = final occupancy over occupancy-at-anchor when the latter is positive,
else `None`; a (truthy) ratio is stored rounded to 3 places. -/
def completionRowFor (s : Sailing) (sb : List Booking) (anchorDays : ℕ) : CompletionRow :=
  let finalOcc := occupancyPct sb.length s.capacity_cabins
  let occAtAnchor := occupancyPct (cabinsAtAnchor sb s.departure_date anchorDays) s.capacity_cabins
  { sailing_id := s.sailing_id
    region := s.itinerary_region
    departure_date := s.departure_date
    anchor_days_out := anchorDays
    occupancy_at_anchor := roundTo 1 occAtAnchor
    final_occupancy := roundTo 1 finalOcc
    completion_ratio :=
      if 0 < occAtAnchor then
        if finalOcc / occAtAnchor = 0 then none else some (roundTo 3 (finalOcc / occAtAnchor))
      else none }

/-- All rows of `completion_ratios`: one per (historical sailing, anchor),
skipping sailings with no bookings at all. -/
def completionRowsAll (sailings : List Sailing) (bookings : List Booking)
    (refDate : ℤ) : List CompletionRow :=
  (sailings.filter (fun s => s.departure_date < refDate)).flatMap (fun s =>
    if (bookingsFor bookings s.sailing_id).isEmpty then []
    else anchorPoints.map (completionRowFor s (bookingsFor bookings s.sailing_id)))

/-- `completion_df` after `dropna(subset=['completion_ratio'])`. -/
def completionDf (sailings : List Sailing) (bookings : List Booking)
    (refDate : ℤ) : List CompletionRow :=
  (completionRowsAll sailings bookings refDate).filter (fun r => r.completion_ratio.isSome)

/-- The recorded completion ratios for one `(region, anchor)` group. -/
def ratiosFor (rows : List CompletionRow) (region : String) (anchorDays : ℕ) : List ℚ :=
  ((rows.filter (fun r => r.region == region && r.anchor_days_out == anchorDays)).filterMap
    (fun r => r.completion_ratio))

/-- The `avg_completion` table entry for `(region, anchor)`: mean completion
ratio and sample size; absent exactly when the group is empty. -/
def avgCompletionEntry (rows : List CompletionRow) (region : String) (anchorDays : ℕ) :
    Option (ℚ × ℕ) :=
  let xs := ratiosFor rows region anchorDays
  if xs.isEmpty then none else some (listMean xs, xs.length)

/-! ## Occupancy Forecaster (`forecasting.py`, STEP 2) -/

/-- `abs(x - days_until_departure)` for an anchor `x`. -/
def distTo (daysUntil : ℤ) (a : ℕ) : ℕ := ((a : ℤ) - daysUntil).natAbs

/-- Python `min(xs, key)` with initial candidate `x0`: the fold keeps the
earliest element attaining the minimum of the key. -/
def pyMin (key : ℕ → ℕ) (x0 : ℕ) (xs : List ℕ) : ℕ :=
  xs.foldl (fun best x => if key x < key best then x else best) x0

/-- `min(anchor_options, key=lambda x: abs(x - days_until_departure))`. -/
def closestAnchor (daysUntil : ℤ) : ℕ :=
  pyMin (distTo daysUntil) 180 [120, 90, 60, 30]

/-- The `avg_completion_ratio` column of the rows of `avg_completion` whose
region is `region` (one per anchor that has data). -/
def regionAnchorMeans (rows : List CompletionRow) (region : String) : List ℚ :=
  anchorPoints.filterMap (fun a => (avgCompletionEntry rows region a).map Prod.fst)

/-- The completion ratio the forecaster settles on: the table entry at
`(region, closest anchor)`; else the mean of the region's per-anchor average
ratios; else the fixed default `1.2`. -/
def chosenCompletionRatio (rows : List CompletionRow) (region : String)
    (daysUntil : ℤ) : ℚ :=
  match avgCompletionEntry rows region (closestAnchor daysUntil) with
  | some e => e.1
  | none =>
      let rs := regionAnchorMeans rows region
      if rs.isEmpty then 12 / 10 else listMean rs

/-- `completion_df[completion_df['region'] == region]['final_occupancy']`
(over the table after `dropna`). -/
def regionFinalOccs (rows : List CompletionRow) (region : String) : List ℚ :=
  (rows.filter (fun r => r.region == region)).map (fun r => r.final_occupancy)

/-- The sailing's bookings made on or before the reference date. -/
def currentBookingsFor (bookings : List Booking) (sid : String) (refDate : ℤ) :
    List Booking :=
  bookings.filter (fun b => b.sailing_id == sid && b.booking_date ≤ refDate)

/-- One row of `revenue_forecast.csv` (the dict appended to `forecasts`). -/
structure ForecastRecord where
  sailing_id : String
  itinerary_region : String
  ship_name : String
  departure_date : ℤ
  days_until_departure : ℤ
  capacity_cabins : ℕ
  current_cabins_sold : ℕ
  current_occupancy_pct : ℚ
  completion_ratio_used : ℚ
  projected_final_occupancy_pct : ℚ
  projected_cabins_sold : ℚ
  avg_fare_per_person : ℚ
  projected_revenue : ℚ
  target_occupancy_pct : ℚ
  projected_vs_target : ℚ
  competitor_price_index : ℚ
deriving DecidableEq

/-- The forecast for one future sailing (`forecasting.py`, STEP 2 loop body). -/
def forecastSailing (sailings : List Sailing) (bookings : List Booking)
    (refDate : ℤ) (s : Sailing) : ForecastRecord :=
  let rows := completionDf sailings bookings refDate
  let daysUntil := s.departure_date - refDate
  let sb := currentBookingsFor bookings s.sailing_id refDate
  let currentSold := sb.length
  let currOcc := occupancyPct currentSold s.capacity_cabins
  let ratio := chosenCompletionRatio rows s.itinerary_region daysUntil
  let projRaw :=
    if 0 < currOcc then currOcc * ratio
    else
      let fo := regionFinalOccs rows s.itinerary_region
      if fo.isEmpty then 75 else listMean fo
  let proj := min projRaw 100
  let projCabins := proj / 100 * s.capacity_cabins
  let avgFare :=
    if sb.isEmpty then s.base_fare_per_person * (95 / 100)
    else listMean (sb.map (fun b => b.fare_paid_per_person))
  let projRevenue := projCabins * avgFare * 2
  let compIdx :=
    if sb.isEmpty then 1 else listMean (sb.map (fun b => b.competitor_price_index))
  { sailing_id := s.sailing_id
    itinerary_region := s.itinerary_region
    ship_name := s.ship_name
    departure_date := s.departure_date
    days_until_departure := daysUntil
    capacity_cabins := s.capacity_cabins
    current_cabins_sold := currentSold
    current_occupancy_pct := roundTo 1 currOcc
    completion_ratio_used := roundTo 3 ratio
    projected_final_occupancy_pct := roundTo 1 proj
    projected_cabins_sold := roundTo 1 projCabins
    avg_fare_per_person := roundTo 0 avgFare
    projected_revenue := roundTo 0 projRevenue
    target_occupancy_pct := 90
    projected_vs_target := roundTo 1 (proj - 90)
    competitor_price_index := roundTo 2 compIdx }

/-! ## Classifier (`classification.py`) -/

/-- One row of `sailing_classification.csv` (the dict appended to
`classifications`). -/
structure ClassificationRecord where
  sailing_id : String
  itinerary_region : String
  ship_name : String
  departure_date : ℤ
  days_until_departure : ℤ
  capacity_cabins : ℕ
  current_occupancy_pct : ℚ
  projected_final_occupancy_pct : ℚ
  target_occupancy_pct : ℚ
  projected_vs_target : ℚ
  competitor_price_index : ℚ
  status : String
  status_category : String
  recommended_action : String
deriving DecidableEq

def OVERPERFORM_THRESHOLD : ℚ := 5
def AT_RISK_THRESHOLD : ℚ := -5

/-- Status determination: `(status, status_category)` from
`projected_vs_target`. -/
def statusFor (pvt : ℚ) : String × String :=
  if OVERPERFORM_THRESHOLD < pvt then ("Overperforming", "opportunity")
  else if pvt < AT_RISK_THRESHOLD then ("At Risk", "risk")
  else ("On Track", "monitor")

/-- The `Overperforming` branch of recommendation synthesis, appends in source
order. -/
def overperformActions (competitorIdx projectedOcc : ℚ) (daysUntil : ℤ) : List String :=
  (if 105 / 100 < competitorIdx then
      ["Increase price 8-12% for remaining inventory",
       "Consider closed-to-arrival restrictions for lowest categories"]
    else
      ["Increase price 3-5% for remaining inventory"]) ++
  (if 90 < daysUntil then ["Explore charter/group opportunities at premium rates"] else []) ++
  (if 95 < projectedOcc then
      ["Activate premium pricing tier for final cabins",
       "Consider waitlist protocol"]
    else [])

/-- The `At Risk` branch of recommendation synthesis. -/
def atRiskActions (competitorIdx currentOcc : ℚ) (daysUntil : ℤ) : List String :=
  (if competitorIdx < 95 / 100 then
      let priceGap := round ((1 - competitorIdx) * 100)
      [s!"⚠️ Pricing misalignment: competitors {priceGap}% cheaper",
       "Recommend targeted price reduction (10-15%) on mid-tier cabins",
       "Audit competitive set pricing weekly"]
    else
      ["Increase marketing spend: digital + email remarketing",
       "Activate past guest outreach with limited-time incentive"]) ++
  (if daysUntil < 90 then
      ["Launch flash sale: 15-20% off select categories (48-72hr window)",
       "Engage travel agent partners with override commission"]
    else []) ++
  (if daysUntil < 60 then
      ["Coordinate with sales team for direct outreach to qualified leads",
       "Consider bundled value-adds (pre/post hotel, excursions) vs straight discount"]
    else []) ++
  (if currentOcc < 50 ∧ daysUntil < 120 then
      ["🚨 CRITICAL: Evaluate sailing viability vs consolidation",
       "Prepare passenger communication plan if itinerary change needed"]
    else [])

/-- The `On Track` branch of recommendation synthesis. -/
def onTrackActions (competitorIdx : ℚ) (daysUntil : ℤ) : List String :=
  ["Monitor pace weekly against forecast"] ++
  (if 120 < daysUntil then
      ["Maintain current pricing strategy",
       "Focus on awareness-building and early booker campaigns"]
    else if 60 < daysUntil then
      ["Prepare shoulder-season promotional offers",
       "Review cabin mix availability for targeted marketing"]
    else
      ["Activate final push: 'Last Chance' messaging",
       "Leverage scarcity messaging in marketing creative"]) ++
  (if competitorIdx < 1 then
      ["Note: Competitors priced lower - monitor for pace impact"]
    else [])

/-- The ordered recommendation list for one sailing. -/
def recommendedActions (pvt currentOcc projectedOcc competitorIdx : ℚ)
    (daysUntil : ℤ) : List String :=
  if (statusFor pvt).1 = "Overperforming" then
    overperformActions competitorIdx projectedOcc daysUntil
  else if (statusFor pvt).1 = "At Risk" then
    atRiskActions competitorIdx currentOcc daysUntil
  else onTrackActions competitorIdx daysUntil

/-- The recommendation list read off a forecast record. -/
def recordActions (r : ForecastRecord) : List String :=
  recommendedActions r.projected_vs_target r.current_occupancy_pct
    r.projected_final_occupancy_pct r.competitor_price_index r.days_until_departure

/-- The classification row built from one forecast row
(`classification.py`, loop body). -/
def classifyRecord (r : ForecastRecord) : ClassificationRecord :=
  let st := statusFor r.projected_vs_target
  { sailing_id := r.sailing_id
    itinerary_region := r.itinerary_region
    ship_name := r.ship_name
    departure_date := r.departure_date
    days_until_departure := r.days_until_departure
    capacity_cabins := r.capacity_cabins
    current_occupancy_pct := r.current_occupancy_pct
    projected_final_occupancy_pct := r.projected_final_occupancy_pct
    target_occupancy_pct := r.target_occupancy_pct
    projected_vs_target := r.projected_vs_target
    competitor_price_index := r.competitor_price_index
    status := st.1
    status_category := st.2
    recommended_action := String.intercalate " | " (recordActions r) }

/-- The dict keys of the row `forecasting.py` appends to `forecasts`. -/
def forecastFieldNames : List String :=
  ["sailing_id", "itinerary_region", "ship_name", "departure_date",
   "days_until_departure", "capacity_cabins", "current_cabins_sold",
   "current_occupancy_pct", "completion_ratio_used",
   "projected_final_occupancy_pct", "projected_cabins_sold",
   "avg_fare_per_person", "projected_revenue", "target_occupancy_pct",
   "projected_vs_target", "competitor_price_index"]

/-- The dict keys of the row `classification.py` appends to
`classifications`. -/
def classificationFieldNames : List String :=
  ["sailing_id", "itinerary_region", "ship_name", "departure_date",
   "days_until_departure", "capacity_cabins", "current_occupancy_pct",
   "projected_final_occupancy_pct", "target_occupancy_pct",
   "projected_vs_target", "competitor_price_index",
   "status", "status_category", "recommended_action"]

/-- The forecast fields that never reach the classification row. -/
def droppedForecastFieldNames : List String :=
  ["current_cabins_sold", "completion_ratio_used", "projected_cabins_sold",
   "avg_fare_per_person", "projected_revenue"]

/-! ## Booking Curve Builder (`analysis_notebook.py`, SECTION 3) -/

/-- One point of a per-sailing booking curve. -/
structure CurvePoint where
  days_to_departure : ℕ
  cumulative_cabins : ℕ
  percent_filled : ℚ
deriving DecidableEq

/-- Insert a booking into a list already sorted by non-increasing
`days_to_departure`, before the first strictly smaller entry. -/
def insertByDaysDesc (b : Booking) : List Booking → List Booking
  | [] => [b]
  | c :: cs =>
      if c.days_to_departure ≤ b.days_to_departure then b :: c :: cs
      else c :: insertByDaysDesc b cs

/-- `sort_values('days_to_departure', ascending=False)`: earliest bookings
first. -/
def sortByDaysDesc : List Booking → List Booking
  | [] => []
  | b :: bs => insertByDaysDesc b (sortByDaysDesc bs)

/-- Attach `cumulative_cabins = range(1, n + 1)` and
`percent_filled = cumulative / capacity * 100` down the sorted bookings,
`k` cabins already counted. -/
def curvePointsAux (capacity k : ℕ) : List Booking → List CurvePoint
  | [] => []
  | b :: bs =>
      { days_to_departure := b.days_to_departure
        cumulative_cabins := k + 1
        percent_filled := ((k : ℚ) + 1) / capacity * 100 } :: curvePointsAux capacity (k + 1) bs

/-- The booking curve of one sailing; a sailing with no bookings is skipped
(`continue`), so it contributes the empty sequence. -/
def bookingCurve (sb : List Booking) (capacity : ℕ) : List CurvePoint :=
  if sb.isEmpty then [] else curvePointsAux capacity 0 (sortByDaysDesc sb)

/-- One row appended to `booking_curves` (flattened into `curves_df`). -/
structure CurveRow where
  sailing_id : String
  itinerary_region : String
  ship_name : String
  departure_date : ℤ
  capacity_cabins : ℕ
  days_to_departure : ℕ
  cumulative_cabins : ℕ
  percent_filled : ℚ
deriving DecidableEq

/-- `curves_df`: booking-curve rows of every sailing of the file — with no
filter on the departure date, so future sailings contribute too. -/
def curveRows (sailings : List Sailing) (bookings : List Booking) : List CurveRow :=
  sailings.flatMap (fun s =>
    (bookingCurve (bookingsFor bookings s.sailing_id) s.capacity_cabins).map (fun p =>
      { sailing_id := s.sailing_id
        itinerary_region := s.itinerary_region
        ship_name := s.ship_name
        departure_date := s.departure_date
        capacity_cabins := s.capacity_cabins
        days_to_departure := p.days_to_departure
        cumulative_cabins := p.cumulative_cabins
        percent_filled := p.percent_filled }))

/-! ## Pace Analyzer (`analysis_notebook.py`, SECTION 4) -/

/-- The `curves_df` rows of one region. -/
def regionCurveRows (rows : List CurveRow) (region : String) : List CurveRow :=
  rows.filter (fun r => r.itinerary_region == region)

/-- Insert into a strictly ascending list, ignoring duplicates — builds the
sorted distinct group keys of a `groupby`. -/
def sortedInsert (n : ℕ) : List ℕ → List ℕ
  | [] => [n]
  | m :: ms =>
      if n < m then n :: m :: ms
      else if n = m then m :: ms
      else m :: sortedInsert n ms

/-- The distinct observed `days_to_departure` values, ascending — the row
order of `target_curves` restricted to one region. -/
def observedDaysAsc (l : List ℕ) : List ℕ := l.foldr sortedInsert []

/-- `target_curves`' mean `percent_filled` for `(region, d)`. -/
def targetMeanAt (rows : List CurveRow) (region : String) (d : ℕ) : ℚ :=
  listMean (((regionCurveRows rows region).filter
    (fun r => r.days_to_departure == d)).map (fun r => r.percent_filled))

/-- `nsmallest(1, 'days_diff')` over the region's target rows (ascending by
day): the smallest observed day attaining the minimal distance. -/
def closestObservedDay (dUntil : ℤ) (d0 : ℕ) (rest : List ℕ) : ℕ :=
  pyMin (distTo dUntil) d0 rest

/-- The pace target for one region and days-until-departure: the mean
percent-filled at the closest observed day, or the flat default `50.0` when
the region has no curve rows. -/
def paceTarget (rows : List CurveRow) (region : String) (dUntil : ℤ) : ℚ :=
  match observedDaysAsc ((regionCurveRows rows region).map (fun r => r.days_to_departure)) with
  | [] => 50
  | d0 :: rest => targetMeanAt rows region (closestObservedDay dUntil d0 rest)

/-- One row appended to `pace_analysis`. -/
structure PaceRecord where
  sailing_id : String
  itinerary_region : String
  departure_date : ℤ
  capacity_cabins : ℕ
  days_until_departure : ℤ
  current_occupancy_pct : ℚ
  target_occupancy_pct : ℚ
  pace_delta : ℚ
deriving DecidableEq

/-- The pace-analysis row for one future sailing. -/
def paceRecordFor (sailings : List Sailing) (bookings : List Booking)
    (refDate : ℤ) (s : Sailing) : PaceRecord :=
  let rows := curveRows sailings bookings
  let currOcc := roundTo 1 (occupancyPct
    (currentBookingsFor bookings s.sailing_id refDate).length s.capacity_cabins)
  let target := paceTarget rows s.itinerary_region (s.departure_date - refDate)
  { sailing_id := s.sailing_id
    itinerary_region := s.itinerary_region
    departure_date := s.departure_date
    capacity_cabins := s.capacity_cabins
    days_until_departure := s.departure_date - refDate
    current_occupancy_pct := currOcc
    target_occupancy_pct := roundTo 1 target
    pace_delta := roundTo 1 (currOcc - target) }

/-- Modelled from the spec: the pace target as §4.5 words it, computed from
the curve points of *historical* sailings only (departure before the
reference date) — for comparison with `paceTarget`, which the code feeds
from every sailing's curve points. -/
def paceTargetHistoricalOnly (sailings : List Sailing) (bookings : List Booking)
    (refDate : ℤ) (region : String) (dUntil : ℤ) : ℚ :=
  paceTarget (curveRows (sailings.filter (fun s => s.departure_date < refDate)) bookings)
    region dUntil

/-! ## Concrete data for witnesses and counterexamples -/

/-- A sailing row with the given id, region, departure day and capacity. -/
def mkSailing (sid region : String) (dep : ℤ) (cap : ℕ) : Sailing :=
  { sailing_id := sid, ship_name := "MV Aurora", itinerary_region := region,
    itinerary_name := "Loop", departure_date := dep, duration_days := 10,
    capacity_cabins := cap, cabin_mix_class := "standard",
    base_fare_per_person := 8000 }

/-- A booking row for the given sailing, date and days-to-departure. -/
def mkBooking (bid sid : String) (bdate : ℤ) (dtd : ℕ) : Booking :=
  { booking_id := bid, sailing_id := sid, booking_date := bdate,
    days_to_departure := dtd, channel := "direct", party_size := 2,
    fare_paid_per_person := 7500, discount_flag := false,
    price_version := "v1", competitor_price_index := 1,
    booking_segment := "mid_booker" }

/-- A historical sailing of region `R` (departed at day `-10`, capacity 100). -/
def histSailingR : Sailing := mkSailing "H1" "R" (-10) 100

/-- A future sailing of region `R` (departs at day `50`, capacity 50). -/
def futureSailingR : Sailing := mkSailing "F1" "R" 50 50

/-- The single booking of `histSailingR`, 100 days out. -/
def histBookingR : Booking := mkBooking "B1" "H1" (-110) 100

/-- The single booking of `futureSailingR`, also observed 100 days out. -/
def futureBookingR : Booking := mkBooking "B2" "F1" (-50) 100

/-- Mixed historical and future sailings of one region. -/
def paceSailings : List Sailing := [histSailingR, futureSailingR]

/-- Their bookings. -/
def paceBookings : List Booking := [histBookingR, futureBookingR]

/-- A future sailing with capacity 100 in a region with no history. -/
def freshSailing : Sailing := mkSailing "X1" "NoData" 40 100

/-! ## Arithmetic lemmas -/

theorem round_rat_mono {x y : ℚ} (h : x ≤ y) : round x ≤ round y := by
  rw [round_eq, round_eq]
  exact Int.floor_le_floor (by linarith)

theorem roundTo_intCast (n : ℕ) (k : ℤ) : roundTo n (k : ℚ) = k := by
  unfold roundTo
  have hc : ((k : ℚ) * 10 ^ n) = ((k * 10 ^ n : ℤ) : ℚ) := by push_cast; ring
  rw [hc, round_intCast]
  push_cast
  field_simp

theorem roundTo_mono (n : ℕ) {x y : ℚ} (h : x ≤ y) : roundTo n x ≤ roundTo n y := by
  unfold roundTo
  have h10 : (0 : ℚ) < 10 ^ n := by positivity
  have hr := round_rat_mono (mul_le_mul_of_nonneg_right h h10.le)
  exact (div_le_div_right h10).mpr (by exact_mod_cast hr)

theorem roundTo_nonneg (n : ℕ) {x : ℚ} (h : 0 ≤ x) : 0 ≤ roundTo n x := by
  have h0 : roundTo n (0 : ℚ) = 0 := by simpa using roundTo_intCast n 0
  have hm := roundTo_mono n h
  rwa [h0] at hm

theorem roundTo_le_intCast (n : ℕ) {x : ℚ} (k : ℤ) (h : x ≤ (k : ℚ)) :
    roundTo n x ≤ (k : ℚ) := by
  have hm := roundTo_mono n h
  rwa [roundTo_intCast] at hm

theorem intCast_le_roundTo (n : ℕ) {x : ℚ} (k : ℤ) (h : (k : ℚ) ≤ x) :
    (k : ℚ) ≤ roundTo n x := by
  have hm := roundTo_mono n h
  rwa [roundTo_intCast] at hm

theorem roundTo_sub_intCast (n : ℕ) (x : ℚ) (k : ℤ) :
    roundTo n (x - k) = roundTo n x - k := by
  unfold roundTo
  have hc : (x - k) * 10 ^ n = x * 10 ^ n - ((k * 10 ^ n : ℤ) : ℚ) := by push_cast; ring
  rw [hc]
  rw [show x * 10 ^ n - ((k * 10 ^ n : ℤ) : ℚ) = x * 10 ^ n - (k * 10 ^ n : ℤ) from rfl]
  rw [round_sub_int]
  have h10 : (0 : ℚ) < 10 ^ n := by positivity
  push_cast
  field_simp
  ring

theorem listMean_nonneg {l : List ℚ} (h : ∀ x ∈ l, 0 ≤ x) : 0 ≤ listMean l := by
  unfold listMean
  exact div_nonneg (List.sum_nonneg h) (by positivity)

theorem length_le_sum_of_one_le {l : List ℚ} (h : ∀ x ∈ l, 1 ≤ x) :
    (l.length : ℚ) ≤ l.sum := by
  induction l with
  | nil => simp
  | cons a t ih =>
      simp only [List.length_cons, List.sum_cons]
      push_cast
      have ha := h a (by simp)
      have ht := ih (fun x hx => h x (by simp [hx]))
      linarith

theorem one_le_listMean {l : List ℚ} (hne : l ≠ []) (h : ∀ x ∈ l, 1 ≤ x) :
    1 ≤ listMean l := by
  unfold listMean
  have hl : 0 < (l.length : ℚ) := by
    exact_mod_cast List.length_pos.mpr hne
  exact (one_le_div hl).mpr (length_le_sum_of_one_le h)

theorem occupancyPct_nonneg (c k : ℕ) : 0 ≤ occupancyPct c k := by
  unfold occupancyPct
  positivity

theorem occupancyPct_mono {c c' : ℕ} (k : ℕ) (h : c ≤ c') :
    occupancyPct c k ≤ occupancyPct c' k := by
  unfold occupancyPct
  rcases Nat.eq_zero_or_pos k with hk | hk
  · simp [hk]
  · have hkq : (0 : ℚ) < k := by exact_mod_cast hk
    have : (c : ℚ) / k ≤ (c' : ℚ) / k :=
      (div_le_div_right hkq).mpr (by exact_mod_cast h)
    exact mul_le_mul_of_nonneg_right this (by norm_num)

/-! ## Completion-ratio estimator lemmas -/

theorem cabinsAtAnchor_le_length (sb : List Booking) (dep : ℤ) (a : ℕ) :
    cabinsAtAnchor sb dep a ≤ sb.length := by
  unfold cabinsAtAnchor
  exact List.length_filter_le _ _

theorem completionRatio_none_iff (s : Sailing) (sb : List Booking) (a : ℕ) :
    (completionRowFor s sb a).completion_ratio = none ↔
      occupancyPct (cabinsAtAnchor sb s.departure_date a) s.capacity_cabins = 0 := by
  have hle : occupancyPct (cabinsAtAnchor sb s.departure_date a) s.capacity_cabins ≤
      occupancyPct sb.length s.capacity_cabins :=
    occupancyPct_mono _ (cabinsAtAnchor_le_length sb s.departure_date a)
  have hnn := occupancyPct_nonneg (cabinsAtAnchor sb s.departure_date a) s.capacity_cabins
  simp only [completionRowFor]
  split_ifs with h1 h2
  · exfalso
    have h3 : 1 ≤ occupancyPct sb.length s.capacity_cabins /
        occupancyPct (cabinsAtAnchor sb s.departure_date a) s.capacity_cabins :=
      (one_le_div h1).mpr hle
    rw [h2] at h3
    linarith
  · simp [h1.ne']
  · simp only [true_iff]
    linarith [not_lt.mp h1]

theorem one_le_completionRatio {s : Sailing} {sb : List Booking} {a : ℕ} {q : ℚ}
    (h : (completionRowFor s sb a).completion_ratio = some q) : 1 ≤ q := by
  have hle : occupancyPct (cabinsAtAnchor sb s.departure_date a) s.capacity_cabins ≤
      occupancyPct sb.length s.capacity_cabins :=
    occupancyPct_mono _ (cabinsAtAnchor_le_length sb s.departure_date a)
  simp only [completionRowFor] at h
  split_ifs at h with h1 h2
  · have hq : q = roundTo 3 (occupancyPct sb.length s.capacity_cabins /
        occupancyPct (cabinsAtAnchor sb s.departure_date a) s.capacity_cabins) :=
      (Option.some.inj h).symm
    have h3 : 1 ≤ occupancyPct sb.length s.capacity_cabins /
        occupancyPct (cabinsAtAnchor sb s.departure_date a) s.capacity_cabins :=
      (one_le_div h1).mpr hle
    have := intCast_le_roundTo 3 1 (by exact_mod_cast h3)
    rw [hq]
    exact_mod_cast this

theorem mem_completionRowsAll {S : List Sailing} {B : List Booking} {ref : ℤ}
    {row : CompletionRow} (h : row ∈ completionRowsAll S B ref) :
    ∃ s a, row = completionRowFor s (bookingsFor B s.sailing_id) a := by
  unfold completionRowsAll at h
  obtain ⟨s, _, hrow⟩ := List.mem_flatMap.mp h
  split at hrow
  · exact absurd hrow (List.not_mem_nil row)
  · obtain ⟨a, _, ha⟩ := List.mem_map.mp hrow
    exact ⟨s, a, ha.symm⟩

theorem one_le_of_mem_ratiosFor {S : List Sailing} {B : List Booking} {ref : ℤ}
    {region : String} {a : ℕ} {x : ℚ}
    (hx : x ∈ ratiosFor (completionDf S B ref) region a) : 1 ≤ x := by
  unfold ratiosFor at hx
  obtain ⟨r, hr, hrq⟩ := List.mem_filterMap.mp hx
  have hr1 : r ∈ completionDf S B ref := (List.mem_filter.mp hr).1
  have hr2 : r ∈ completionRowsAll S B ref := (List.mem_filter.mp hr1).1
  obtain ⟨s, a', heq⟩ := mem_completionRowsAll hr2
  exact one_le_completionRatio (heq ▸ hrq)

theorem one_le_avgEntry {S : List Sailing} {B : List Booking} {ref : ℤ}
    {region : String} {a : ℕ} {e : ℚ × ℕ}
    (h : avgCompletionEntry (completionDf S B ref) region a = some e) : 1 ≤ e.1 := by
  simp only [avgCompletionEntry] at h
  split_ifs at h with he
  have hne : ratiosFor (completionDf S B ref) region a ≠ [] := fun hnil => he (by simp [hnil])
  have hpair := Option.some.inj h
  rw [← hpair]
  exact one_le_listMean hne (fun x hx => one_le_of_mem_ratiosFor hx)

theorem one_le_of_mem_regionAnchorMeans {S : List Sailing} {B : List Booking} {ref : ℤ}
    {region : String} {x : ℚ}
    (hx : x ∈ regionAnchorMeans (completionDf S B ref) region) : 1 ≤ x := by
  unfold regionAnchorMeans at hx
  obtain ⟨a, _, ha⟩ := List.mem_filterMap.mp hx
  obtain ⟨e, he, hex⟩ := Option.map_eq_some'.mp ha
  exact hex ▸ one_le_avgEntry he

theorem one_le_chosenRatio (S : List Sailing) (B : List Booking) (ref : ℤ)
    (region : String) (d : ℤ) :
    1 ≤ chosenCompletionRatio (completionDf S B ref) region d := by
  simp only [chosenCompletionRatio]
  cases hE : avgCompletionEntry (completionDf S B ref) region (closestAnchor d) with
  | some e => simpa using one_le_avgEntry hE
  | none =>
      simp only []
      split_ifs with hrs
      · norm_num
      · have hne : regionAnchorMeans (completionDf S B ref) region ≠ [] :=
          fun hnil => hrs (by simp [hnil])
        exact one_le_listMean hne (fun x hx => one_le_of_mem_regionAnchorMeans hx)

theorem filterMap_ratio_filter_isSome (l : List CompletionRow) :
    (l.filter (fun r => r.completion_ratio.isSome)).filterMap (fun r => r.completion_ratio) =
      l.filterMap (fun r => r.completion_ratio) := by
  induction l with
  | nil => rfl
  | cons r t ih => cases hr : r.completion_ratio <;> simp [List.filter_cons, hr, ih]

theorem ratiosFor_dropna (l : List CompletionRow) (region : String) (a : ℕ) :
    ratiosFor (l.filter (fun r => r.completion_ratio.isSome)) region a =
      ratiosFor l region a := by
  unfold ratiosFor
  rw [List.filter_comm]
  exact filterMap_ratio_filter_isSome _

/-! ## Anchor-selection lemmas -/

theorem pyMin_step (key : ℕ → ℕ) (x0 y : ℕ) (ys : List ℕ) :
    pyMin key x0 (y :: ys) = pyMin key (if key y < key x0 then y else x0) ys := rfl

theorem pyMin_mem (key : ℕ → ℕ) (xs : List ℕ) : ∀ x0, pyMin key x0 xs ∈ x0 :: xs := by
  induction xs with
  | nil => intro x0; simp [pyMin]
  | cons y ys ih =>
      intro x0
      rw [pyMin_step]
      by_cases h : key y < key x0
      · rw [if_pos h]
        rcases List.mem_cons.mp (ih y) with h3 | h3
        · exact List.mem_cons.mpr (Or.inr (List.mem_cons.mpr (Or.inl h3)))
        · exact List.mem_cons.mpr (Or.inr (List.mem_cons.mpr (Or.inr h3)))
      · rw [if_neg h]
        rcases List.mem_cons.mp (ih x0) with h3 | h3
        · exact List.mem_cons.mpr (Or.inl h3)
        · exact List.mem_cons.mpr (Or.inr (List.mem_cons.mpr (Or.inr h3)))

theorem pyMin_le (key : ℕ → ℕ) (xs : List ℕ) :
    ∀ x0, ∀ x ∈ x0 :: xs, key (pyMin key x0 xs) ≤ key x := by
  induction xs with
  | nil =>
      intro x0 x hx
      rcases List.mem_cons.mp hx with h | h
      · subst h; exact le_refl _
      · exact absurd h (List.not_mem_nil x)
  | cons y ys ih =>
      intro x0 x hx
      rw [pyMin_step]
      rcases List.mem_cons.mp hx with h | h
      · subst h
        by_cases hk : key y < key x
        · rw [if_pos hk]
          exact le_trans (ih y y (List.mem_cons_self _ _)) hk.le
        · rw [if_neg hk]
          exact ih x x (List.mem_cons_self _ _)
      · by_cases hk : key y < key x0
        · rw [if_pos hk]
          rcases List.mem_cons.mp h with h2 | h2
          · subst h2; exact ih x x (List.mem_cons_self _ _)
          · exact ih y x (List.mem_cons_of_mem _ h2)
        · rw [if_neg hk]
          rcases List.mem_cons.mp h with h2 | h2
          · subst h2
            exact le_trans (ih x0 x0 (List.mem_cons_self _ _)) (not_lt.mp hk)
          · exact ih x0 x (List.mem_cons_of_mem _ h2)

theorem closestAnchor_mem (d : ℤ) : closestAnchor d ∈ anchorPoints := by
  unfold closestAnchor anchorPoints
  exact pyMin_mem (distTo d) [120, 90, 60, 30] 180

theorem closestAnchor_minimal (d : ℤ) :
    ∀ a ∈ anchorPoints, distTo d (closestAnchor d) ≤ distTo d a := by
  intro a ha
  unfold anchorPoints at ha
  exact pyMin_le (distTo d) [120, 90, 60, 30] 180 a ha

theorem closestAnchor_eq (d : ℤ) :
    closestAnchor d = if 150 ≤ d then 180 else if 105 ≤ d then 120
      else if 75 ≤ d then 90 else if 45 ≤ d then 60 else 30 := by
  unfold closestAnchor pyMin distTo
  simp only [List.foldl_cons, List.foldl_nil]
  split_ifs <;> omega

/-! ## Claim C4 -/

/-- C4: for every historical sailing and every anchor, the estimator records a
completion ratio exactly when occupancy-at-anchor is nonzero, every recorded
ratio is strictly positive (a rational, hence finite — never zero, infinite
or NaN), and rows without a ratio are excluded from the aggregated
per-(region, anchor) mean and sample count (`dropna` before `groupby`, so
aggregating the raw rows or the dropped table is the same). -/
theorem completion_ratio_emission (s : Sailing) (sb : List Booking) (a : ℕ)
    (S : List Sailing) (B : List Booking) (ref : ℤ) (region : String) (a' : ℕ) :
    ((completionRowFor s sb a).completion_ratio = none ↔
      occupancyPct (cabinsAtAnchor sb s.departure_date a) s.capacity_cabins = 0) ∧
    (∀ q, (completionRowFor s sb a).completion_ratio = some q → 0 < q) ∧
    avgCompletionEntry (completionRowsAll S B ref) region a' =
      avgCompletionEntry (completionDf S B ref) region a' := by
  refine ⟨completionRatio_none_iff s sb a,
    fun q hq => lt_of_lt_of_le zero_lt_one (one_le_completionRatio hq), ?_⟩
  unfold avgCompletionEntry completionDf
  rw [ratiosFor_dropna]

/-! ## Claim C5 -/

/-- C5: the forecaster's completion ratio follows the exact fallback chain:
the `avg_completion` entry at (region, nearest anchor) when present, else the
mean of the region's per-anchor average ratios when any exist, else the fixed
default `1.2`; the nearest anchor is a member of `{180,120,90,60,30}`
minimizing the absolute difference to days-until-departure. -/
theorem forecaster_ratio_fallback_chain (S : List Sailing) (B : List Booking)
    (ref : ℤ) (s : Sailing) :
    (forecastSailing S B ref s).completion_ratio_used =
      roundTo 3 (chosenCompletionRatio (completionDf S B ref) s.itinerary_region
        (s.departure_date - ref)) ∧
    closestAnchor (s.departure_date - ref) ∈ anchorPoints ∧
    (∀ a ∈ anchorPoints, distTo (s.departure_date - ref) (closestAnchor (s.departure_date - ref)) ≤
      distTo (s.departure_date - ref) a) ∧
    (∀ e, avgCompletionEntry (completionDf S B ref) s.itinerary_region
        (closestAnchor (s.departure_date - ref)) = some e →
      chosenCompletionRatio (completionDf S B ref) s.itinerary_region (s.departure_date - ref) = e.1) ∧
    (avgCompletionEntry (completionDf S B ref) s.itinerary_region
        (closestAnchor (s.departure_date - ref)) = none →
      regionAnchorMeans (completionDf S B ref) s.itinerary_region ≠ [] →
      chosenCompletionRatio (completionDf S B ref) s.itinerary_region (s.departure_date - ref) =
        listMean (regionAnchorMeans (completionDf S B ref) s.itinerary_region)) ∧
    (avgCompletionEntry (completionDf S B ref) s.itinerary_region
        (closestAnchor (s.departure_date - ref)) = none →
      regionAnchorMeans (completionDf S B ref) s.itinerary_region = [] →
      chosenCompletionRatio (completionDf S B ref) s.itinerary_region (s.departure_date - ref) =
        12 / 10) := by
  refine ⟨rfl, closestAnchor_mem _, closestAnchor_minimal _, ?_, ?_, ?_⟩
  · intro e he
    simp [chosenCompletionRatio, he]
  · intro h1 h2
    simp [chosenCompletionRatio, h1, List.isEmpty_iff, h2]
  · intro h1 h2
    simp [chosenCompletionRatio, h1, h2]

/-! ## Claim C10 -/

/-- C10: when days-until-departure is equidistant from two anchors that both
attain the minimal absolute difference, the forecaster's anchor selection
picks the larger of the two — the candidates are scanned in descending order
`[180, 120, 90, 60, 30]` and the fold keeps the first minimizer. -/
theorem tie_between_anchors_selects_larger (d : ℤ) (a b : ℕ)
    (ha : a ∈ anchorPoints) (hb : b ∈ anchorPoints) (hab : a ≠ b)
    (heq : distTo d a = distTo d b)
    (hmin : ∀ c ∈ anchorPoints, distTo d a ≤ distTo d c) :
    closestAnchor d = max a b := by
  have h1 := hmin 180 (by simp [anchorPoints])
  have h2 := hmin 120 (by simp [anchorPoints])
  have h3 := hmin 90 (by simp [anchorPoints])
  have h4 := hmin 60 (by simp [anchorPoints])
  have h5 := hmin 30 (by simp [anchorPoints])
  rw [closestAnchor_eq]
  simp only [anchorPoints, List.mem_cons, List.not_mem_nil, or_false] at ha hb
  unfold distTo at heq h1 h2 h3 h4 h5
  rcases ha with rfl | rfl | rfl | rfl | rfl <;> rcases hb with rfl | rfl | rfl | rfl | rfl <;>
    split_ifs <;> omega

/-- Witness for C10 at the concrete tie `d = 150` between anchors 180 and
120. -/
theorem tie_between_anchors_witness : closestAnchor 150 = max 180 120 :=
  tie_between_anchors_selects_larger 150 180 120 (by decide) (by decide) (by decide)
    (by decide) (by decide)

/-! ## Claim C1 -/

/-- C1: the classifier assigns `Overperforming`/`opportunity` iff
projected-vs-target exceeds `5.0`, `At Risk`/`risk` iff it is below `-5.0`,
and `On Track`/`monitor` otherwise; both comparisons are strict, so a delta of
exactly `+5.0` or `-5.0` resolves to `On Track`. -/
theorem classifier_threshold_boundaries (r : ForecastRecord) :
    ((classifyRecord r).status = "Overperforming" ∧
      (classifyRecord r).status_category = "opportunity" ↔ 5 < r.projected_vs_target) ∧
    ((classifyRecord r).status = "At Risk" ∧
      (classifyRecord r).status_category = "risk" ↔ r.projected_vs_target < -5) ∧
    ((classifyRecord r).status = "On Track" ∧
      (classifyRecord r).status_category = "monitor" ↔
      -5 ≤ r.projected_vs_target ∧ r.projected_vs_target ≤ 5) ∧
    (r.projected_vs_target = 5 → (classifyRecord r).status = "On Track") ∧
    (r.projected_vs_target = -5 → (classifyRecord r).status = "On Track") := by
  simp only [classifyRecord, statusFor, OVERPERFORM_THRESHOLD, AT_RISK_THRESHOLD]
  split_ifs with hov har <;>
    refine ⟨?_, ?_, ?_, ?_, ?_⟩ <;> simp_all <;> try linarith

/-! ## Claim C2 (corrected) -/

/-- Counterexample to C2 as stated: the classification row does not carry
every forecast field — `current_cabins_sold` and `projected_revenue` (among
others) appear in the forecast row's keys but not in the classification
row's keys, so the key list is not the forecast key list plus the three new
fields. -/
theorem classification_drops_forecast_fields :
    "current_cabins_sold" ∈ forecastFieldNames ∧
    "current_cabins_sold" ∉ classificationFieldNames ∧
    "projected_revenue" ∈ forecastFieldNames ∧
    "projected_revenue" ∉ classificationFieldNames ∧
    classificationFieldNames ≠
      forecastFieldNames ++ ["status", "status_category", "recommended_action"] := by
  decide

/-- C2 amended: the classification row copies unchanged the eleven forecast
fields it does carry, adds exactly `status`, `status_category` and
`recommended_action`, and its key list is the forecast key list minus the
five dropped fields (`current_cabins_sold`, `completion_ratio_used`,
`projected_cabins_sold`, `avg_fare_per_person`, `projected_revenue`) plus
those three. -/
theorem classification_keeps_other_fields_unchanged (r : ForecastRecord) :
    (classifyRecord r).sailing_id = r.sailing_id ∧
    (classifyRecord r).itinerary_region = r.itinerary_region ∧
    (classifyRecord r).ship_name = r.ship_name ∧
    (classifyRecord r).departure_date = r.departure_date ∧
    (classifyRecord r).days_until_departure = r.days_until_departure ∧
    (classifyRecord r).capacity_cabins = r.capacity_cabins ∧
    (classifyRecord r).current_occupancy_pct = r.current_occupancy_pct ∧
    (classifyRecord r).projected_final_occupancy_pct = r.projected_final_occupancy_pct ∧
    (classifyRecord r).target_occupancy_pct = r.target_occupancy_pct ∧
    (classifyRecord r).projected_vs_target = r.projected_vs_target ∧
    (classifyRecord r).competitor_price_index = r.competitor_price_index ∧
    (classifyRecord r).status = (statusFor r.projected_vs_target).1 ∧
    (classifyRecord r).status_category = (statusFor r.projected_vs_target).2 ∧
    (classifyRecord r).recommended_action = String.intercalate " | " (recordActions r) ∧
    classificationFieldNames =
      forecastFieldNames.filter (fun f => !droppedForecastFieldNames.contains f) ++
        ["status", "status_category", "recommended_action"] :=
  ⟨rfl, rfl, rfl, rfl, rfl, rfl, rfl, rfl, rfl, rfl, rfl, rfl, rfl, rfl, by decide⟩

/-! ## Claim C3 -/

/-- In every forecast row, the rounded projected occupancy and the rounded
projected-vs-target delta differ by exactly the fixed target 90. -/
theorem forecast_proj_eq_pvt_add_target (S : List Sailing) (B : List Booking)
    (ref : ℤ) (s : Sailing) :
    (forecastSailing S B ref s).projected_final_occupancy_pct =
      (forecastSailing S B ref s).projected_vs_target + 90 := by
  simp only [forecastSailing]
  rw [show ∀ x : ℚ, x - 90 = x - ((90 : ℤ) : ℚ) from fun x => by norm_num]
  rw [roundTo_sub_intCast]
  push_cast
  ring

/-- C3: the classifier is a pure function of projected-vs-target, current
occupancy, days-until-departure and competitor price index — any two
forecast rows (outputs of the forecaster, on any inputs) that agree on those
four fields get the same status, the same category and the same
recommendation list in the same order. -/
theorem classifier_pure_on_four_inputs
    (S1 S2 : List Sailing) (B1 B2 : List Booking) (ref1 ref2 : ℤ) (s1 s2 : Sailing)
    (hpvt : (forecastSailing S1 B1 ref1 s1).projected_vs_target =
      (forecastSailing S2 B2 ref2 s2).projected_vs_target)
    (hocc : (forecastSailing S1 B1 ref1 s1).current_occupancy_pct =
      (forecastSailing S2 B2 ref2 s2).current_occupancy_pct)
    (hdays : (forecastSailing S1 B1 ref1 s1).days_until_departure =
      (forecastSailing S2 B2 ref2 s2).days_until_departure)
    (hcomp : (forecastSailing S1 B1 ref1 s1).competitor_price_index =
      (forecastSailing S2 B2 ref2 s2).competitor_price_index) :
    (classifyRecord (forecastSailing S1 B1 ref1 s1)).status =
      (classifyRecord (forecastSailing S2 B2 ref2 s2)).status ∧
    (classifyRecord (forecastSailing S1 B1 ref1 s1)).status_category =
      (classifyRecord (forecastSailing S2 B2 ref2 s2)).status_category ∧
    recordActions (forecastSailing S1 B1 ref1 s1) =
      recordActions (forecastSailing S2 B2 ref2 s2) := by
  have hproj : (forecastSailing S1 B1 ref1 s1).projected_final_occupancy_pct =
      (forecastSailing S2 B2 ref2 s2).projected_final_occupancy_pct := by
    rw [forecast_proj_eq_pvt_add_target, forecast_proj_eq_pvt_add_target, hpvt]
  refine ⟨?_, ?_, ?_⟩
  · show (statusFor (forecastSailing S1 B1 ref1 s1).projected_vs_target).1 = _
    rw [hpvt]; rfl
  · show (statusFor (forecastSailing S1 B1 ref1 s1).projected_vs_target).2 = _
    rw [hpvt]; rfl
  · unfold recordActions
    rw [hpvt, hocc, hdays, hcomp, hproj]

/-- Witness for C3 at one concrete forecaster input, taken twice. -/
theorem classifier_pure_witness :
    (classifyRecord (forecastSailing [freshSailing] [] 0 freshSailing)).status =
      (classifyRecord (forecastSailing [freshSailing] [] 0 freshSailing)).status ∧
    (classifyRecord (forecastSailing [freshSailing] [] 0 freshSailing)).status_category =
      (classifyRecord (forecastSailing [freshSailing] [] 0 freshSailing)).status_category ∧
    recordActions (forecastSailing [freshSailing] [] 0 freshSailing) =
      recordActions (forecastSailing [freshSailing] [] 0 freshSailing) :=
  classifier_pure_on_four_inputs [freshSailing] [freshSailing] [] [] 0 0
    freshSailing freshSailing rfl rfl rfl rfl

/-! ## Claim C6 -/

/-- C6: a future sailing with capacity 100, no bookings on or before the
reference date, and a region absent from the completion table gets the global
fallback projection 75.0, hence a delta of `75.0 - 90.0 = -15.0`, and the
classifier marks it `At Risk`. -/
theorem zero_booking_unknown_region_forecast (S : List Sailing) (B : List Booking)
    (ref : ℤ) (s : Sailing)
    (hcap : s.capacity_cabins = 100)
    (hnob : currentBookingsFor B s.sailing_id ref = [])
    (hreg : (completionDf S B ref).filter (fun r => r.region == s.itinerary_region) = []) :
    (forecastSailing S B ref s).projected_final_occupancy_pct = 75 ∧
    (forecastSailing S B ref s).projected_vs_target = -15 ∧
    (classifyRecord (forecastSailing S B ref s)).status = "At Risk" := by
  have hfo : regionFinalOccs (completionDf S B ref) s.itinerary_region = [] := by
    unfold regionFinalOccs
    rw [hreg]
    rfl
  have h75 : roundTo 1 (75 : ℚ) = 75 := by
    have h := roundTo_intCast 1 75
    push_cast at h
    exact h
  have h15 : roundTo 1 (-15 : ℚ) = -15 := by
    have h := roundTo_intCast 1 (-15)
    push_cast at h
    exact h
  have hproj : (forecastSailing S B ref s).projected_final_occupancy_pct = 75 := by
    simp only [forecastSailing, hnob, hfo]
    norm_num [occupancyPct, h75]
  have hpvt : (forecastSailing S B ref s).projected_vs_target = -15 := by
    simp only [forecastSailing, hnob, hfo]
    norm_num [occupancyPct, h15]
  refine ⟨hproj, hpvt, ?_⟩
  show (statusFor (forecastSailing S B ref s).projected_vs_target).1 = "At Risk"
  rw [hpvt]
  rfl

/-- Witness for C6: a fresh sailing, empty booking and completion data. -/
theorem zero_booking_unknown_region_witness :
    (forecastSailing [freshSailing] [] 0 freshSailing).projected_final_occupancy_pct = 75 ∧
    (forecastSailing [freshSailing] [] 0 freshSailing).projected_vs_target = -15 ∧
    (classifyRecord (forecastSailing [freshSailing] [] 0 freshSailing)).status = "At Risk" :=
  zero_booking_unknown_region_forecast [freshSailing] [] 0 freshSailing rfl rfl rfl

/-! ## Claim C9 -/

/-- Every `final_occupancy` entry of the dropped completion table is
non-negative. -/
theorem regionFinalOccs_nonneg (S : List Sailing) (B : List Booking) (ref : ℤ)
    (region : String) : ∀ x ∈ regionFinalOccs (completionDf S B ref) region, 0 ≤ x := by
  intro x hx
  unfold regionFinalOccs at hx
  obtain ⟨r, hr, hrx⟩ := List.mem_map.mp hx
  have hr2 : r ∈ completionRowsAll S B ref :=
    (List.mem_filter.mp (List.mem_filter.mp hr).1).1
  obtain ⟨s', a', heq⟩ := mem_completionRowsAll hr2
  rw [← hrx, heq]
  simp only [completionRowFor]
  exact roundTo_nonneg 1 (occupancyPct_nonneg _ _)

/-- C9: for any input tables and any sailing, the forecast's
`projected_final_occupancy_pct` lies in `[0, 100]`: the raw projection is
capped above at 100 and is non-negative because current occupancy, every
completion ratio in the fallback chain, the regional mean final occupancy and
the 75.0 default all are. -/
theorem projected_occupancy_within_bounds (S : List Sailing) (B : List Booking)
    (ref : ℤ) (s : Sailing) :
    0 ≤ (forecastSailing S B ref s).projected_final_occupancy_pct ∧
    (forecastSailing S B ref s).projected_final_occupancy_pct ≤ 100 := by
  have hratio := one_le_chosenRatio S B ref s.itinerary_region (s.departure_date - ref)
  have hocc := occupancyPct_nonneg (currentBookingsFor B s.sailing_id ref).length
    s.capacity_cabins
  constructor
  · simp only [forecastSailing]
    apply roundTo_nonneg
    apply le_min _ (by norm_num)
    split_ifs with h1 h2
    · exact mul_nonneg hocc (le_trans zero_le_one hratio)
    · norm_num
    · exact listMean_nonneg (regionFinalOccs_nonneg S B ref s.itinerary_region)
  · simp only [forecastSailing]
    have hle := roundTo_le_intCast 1 (x :=
      min (if 0 < occupancyPct (currentBookingsFor B s.sailing_id ref).length s.capacity_cabins then
          occupancyPct (currentBookingsFor B s.sailing_id ref).length s.capacity_cabins *
            chosenCompletionRatio (completionDf S B ref) s.itinerary_region (s.departure_date - ref)
        else if (regionFinalOccs (completionDf S B ref) s.itinerary_region).isEmpty then 75
        else listMean (regionFinalOccs (completionDf S B ref) s.itinerary_region)) 100)
      100 (by push_cast; exact min_le_right _ _)
    push_cast at hle
    exact hle

/-! ## Booking-curve lemmas -/

theorem length_insertByDaysDesc (b : Booking) (l : List Booking) :
    (insertByDaysDesc b l).length = l.length + 1 := by
  induction l with
  | nil => rfl
  | cons c cs ih =>
      unfold insertByDaysDesc
      split_ifs
      · simp
      · simp only [List.length_cons, ih]

theorem mem_insertByDaysDesc {b y : Booking} {l : List Booking} :
    y ∈ insertByDaysDesc b l ↔ y = b ∨ y ∈ l := by
  induction l with
  | nil => simp [insertByDaysDesc]
  | cons c cs ih =>
      unfold insertByDaysDesc
      split_ifs
      · simp [List.mem_cons]
      · simp only [List.mem_cons, ih]
        tauto

theorem pairwise_insertByDaysDesc {b : Booking} {l : List Booking}
    (h : l.Pairwise (fun p q => q.days_to_departure ≤ p.days_to_departure)) :
    (insertByDaysDesc b l).Pairwise
      (fun p q => q.days_to_departure ≤ p.days_to_departure) := by
  induction l with
  | nil => simp [insertByDaysDesc]
  | cons c cs ih =>
      rw [List.pairwise_cons] at h
      obtain ⟨hc, hcs⟩ := h
      unfold insertByDaysDesc
      split_ifs with hcb
      · rw [List.pairwise_cons]
        refine ⟨?_, List.pairwise_cons.mpr ⟨hc, hcs⟩⟩
        intro y hy
        rcases List.mem_cons.mp hy with h2 | h2
        · subst h2; exact hcb
        · exact le_trans (hc y h2) hcb
      · rw [List.pairwise_cons]
        refine ⟨?_, ih hcs⟩
        intro y hy
        rcases mem_insertByDaysDesc.mp hy with h2 | h2
        · subst h2; exact le_of_lt (not_le.mp hcb)
        · exact hc y h2

theorem length_sortByDaysDesc (l : List Booking) :
    (sortByDaysDesc l).length = l.length := by
  induction l with
  | nil => rfl
  | cons b bs ih =>
      unfold sortByDaysDesc
      rw [length_insertByDaysDesc, ih]
      rfl

theorem pairwise_sortByDaysDesc (l : List Booking) :
    (sortByDaysDesc l).Pairwise
      (fun p q => q.days_to_departure ≤ p.days_to_departure) := by
  induction l with
  | nil => simp [sortByDaysDesc]
  | cons b bs ih =>
      unfold sortByDaysDesc
      exact pairwise_insertByDaysDesc ih

theorem length_curvePointsAux (capacity : ℕ) (l : List Booking) :
    ∀ k, (curvePointsAux capacity k l).length = l.length := by
  induction l with
  | nil => intro k; rfl
  | cons b bs ih =>
      intro k
      unfold curvePointsAux
      simp only [List.length_cons, ih]

theorem get_curvePointsAux (capacity : ℕ) (l : List Booking) :
    ∀ k i (hi : i < (curvePointsAux capacity k l).length) (hl : i < l.length),
      ((curvePointsAux capacity k l).get ⟨i, hi⟩).days_to_departure =
        (l.get ⟨i, hl⟩).days_to_departure ∧
      ((curvePointsAux capacity k l).get ⟨i, hi⟩).cumulative_cabins = k + i + 1 ∧
      ((curvePointsAux capacity k l).get ⟨i, hi⟩).percent_filled =
        ((k : ℚ) + i + 1) / capacity * 100 := by
  induction l with
  | nil => intro k i hi hl; exact absurd hl (by simp)
  | cons b bs ih =>
      intro k i hi hl
      cases i with
      | zero =>
          refine ⟨rfl, rfl, ?_⟩
          show ((k : ℚ) + 1) / capacity * 100 = ((k : ℚ) + (0 : ℕ) + 1) / capacity * 100
          norm_num
      | succ j =>
          have hl' : j < bs.length := by simpa using hl
          have hi' : j < (curvePointsAux capacity (k + 1) bs).length := by
            rw [length_curvePointsAux capacity bs (k + 1)]
            exact hl'
          obtain ⟨ihd, ihc, ihp⟩ := ih (k + 1) j hi' hl'
          refine ⟨?_, ?_, ?_⟩
          · show ((curvePointsAux capacity (k + 1) bs).get ⟨j, hi'⟩).days_to_departure = _
            rw [ihd]
            simp
          · show ((curvePointsAux capacity (k + 1) bs).get ⟨j, hi'⟩).cumulative_cabins = _
            rw [ihc]
            omega
          · show ((curvePointsAux capacity (k + 1) bs).get ⟨j, hi'⟩).percent_filled = _
            rw [ihp]
            push_cast
            ring_nf

theorem div_mul_100_mono (capacity : ℕ) {x y : ℚ} (h : x ≤ y) :
    x / capacity * 100 ≤ y / capacity * 100 := by
  rcases Nat.eq_zero_or_pos capacity with hc | hc
  · simp [hc]
  · have hcq : (0 : ℚ) < capacity := by exact_mod_cast hc
    exact mul_le_mul_of_nonneg_right ((div_le_div_right hcq).mpr h) (by norm_num)

theorem length_bookingCurve (sb : List Booking) (capacity : ℕ) :
    (bookingCurve sb capacity).length = sb.length := by
  unfold bookingCurve
  split_ifs with h
  · rw [List.isEmpty_iff.mp h]
    rfl
  · rw [length_curvePointsAux, length_sortByDaysDesc]

theorem bookingCurve_eq_aux (sb : List Booking) (capacity : ℕ) (h : sb ≠ []) :
    bookingCurve sb capacity = curvePointsAux capacity 0 (sortByDaysDesc sb) := by
  unfold bookingCurve
  rw [if_neg (by simpa [List.isEmpty_iff] using h)]

theorem bookingCurve_nonempty_of_lt (sb : List Booking) (capacity : ℕ) {i : ℕ}
    (hi : i < (bookingCurve sb capacity).length) : sb ≠ [] := by
  intro habs
  subst habs
  exact absurd hi (by simp [bookingCurve])

theorem bookingCurve_fields (sb : List Booking) (capacity : ℕ) (i : ℕ)
    (hi : i < (bookingCurve sb capacity).length) :
    ((bookingCurve sb capacity).get ⟨i, hi⟩).cumulative_cabins = i + 1 ∧
    ((bookingCurve sb capacity).get ⟨i, hi⟩).percent_filled =
      ((i : ℚ) + 1) / capacity * 100 := by
  have he := bookingCurve_eq_aux sb capacity (bookingCurve_nonempty_of_lt sb capacity hi)
  have hi' : i < (curvePointsAux capacity 0 (sortByDaysDesc sb)).length := by
    rw [← he]
    exact hi
  have hl : i < (sortByDaysDesc sb).length := by
    rw [← length_curvePointsAux capacity (sortByDaysDesc sb) 0]
    exact hi'
  have hg : (bookingCurve sb capacity).get ⟨i, hi⟩ =
      (curvePointsAux capacity 0 (sortByDaysDesc sb)).get ⟨i, hi'⟩ :=
    List.get_of_eq he ⟨i, hi⟩
  obtain ⟨_, hc, hp⟩ := get_curvePointsAux capacity (sortByDaysDesc sb) 0 i hi' hl
  rw [hg]
  refine ⟨by rw [hc]; omega, by rw [hp]; norm_num⟩

theorem bookingCurve_days (sb : List Booking) (capacity : ℕ) (i : ℕ)
    (hi : i < (bookingCurve sb capacity).length)
    (hs : i < (sortByDaysDesc sb).length) :
    ((bookingCurve sb capacity).get ⟨i, hi⟩).days_to_departure =
      ((sortByDaysDesc sb).get ⟨i, hs⟩).days_to_departure := by
  have he := bookingCurve_eq_aux sb capacity (bookingCurve_nonempty_of_lt sb capacity hi)
  have hi' : i < (curvePointsAux capacity 0 (sortByDaysDesc sb)).length := by
    rw [← he]
    exact hi
  have hg : (bookingCurve sb capacity).get ⟨i, hi⟩ =
      (curvePointsAux capacity 0 (sortByDaysDesc sb)).get ⟨i, hi'⟩ :=
    List.get_of_eq he ⟨i, hi⟩
  rw [hg]
  exact (get_curvePointsAux capacity (sortByDaysDesc sb) 0 i hi' hs).1

/-! ## Claim C8 -/

/-- C8: for a sailing with bookings, the booking curve lists one point per
booking, ordered by non-increasing days-to-departure; the k-th point
(1-indexed) carries cumulative cabins `k` and percent-filled
`100 k / capacity`, so percent-filled never decreases along the curve and is
bounded by `100 · (number of bookings) / capacity`; a sailing with no
bookings yields the empty curve. -/
theorem booking_curve_structure (sb : List Booking) (capacity : ℕ) :
    (sb = [] → bookingCurve sb capacity = []) ∧
    (bookingCurve sb capacity).length = sb.length ∧
    (∀ i (hi : i < (bookingCurve sb capacity).length),
      ((bookingCurve sb capacity).get ⟨i, hi⟩).cumulative_cabins = i + 1 ∧
      ((bookingCurve sb capacity).get ⟨i, hi⟩).percent_filled =
        100 * ((i : ℚ) + 1) / capacity) ∧
    (∀ i j (hi : i < (bookingCurve sb capacity).length)
        (hj : j < (bookingCurve sb capacity).length), i ≤ j →
      ((bookingCurve sb capacity).get ⟨j, hj⟩).days_to_departure ≤
        ((bookingCurve sb capacity).get ⟨i, hi⟩).days_to_departure ∧
      ((bookingCurve sb capacity).get ⟨i, hi⟩).percent_filled ≤
        ((bookingCurve sb capacity).get ⟨j, hj⟩).percent_filled) ∧
    (∀ p ∈ bookingCurve sb capacity,
      p.percent_filled ≤ 100 * (sb.length : ℚ) / capacity) := by
  refine ⟨?_, length_bookingCurve sb capacity, ?_, ?_, ?_⟩
  · intro h
    subst h
    rfl
  · intro i hi
    obtain ⟨hc, hp⟩ := bookingCurve_fields sb capacity i hi
    exact ⟨hc, by rw [hp]; ring⟩
  · intro i j hi hj hij
    have hsi : i < (sortByDaysDesc sb).length := by
      rw [length_sortByDaysDesc, ← length_bookingCurve sb capacity]
      exact hi
    have hsj : j < (sortByDaysDesc sb).length := by
      rw [length_sortByDaysDesc, ← length_bookingCurve sb capacity]
      exact hj
    constructor
    · rw [bookingCurve_days sb capacity i hi hsi, bookingCurve_days sb capacity j hj hsj]
      rcases eq_or_lt_of_le hij with h | h
      · subst h
        exact le_refl _
      · exact List.pairwise_iff_get.mp (pairwise_sortByDaysDesc sb) ⟨i, hsi⟩ ⟨j, hsj⟩
          (Fin.mk_lt_mk.mpr h)
    · rw [(bookingCurve_fields sb capacity i hi).2, (bookingCurve_fields sb capacity j hj).2]
      apply div_mul_100_mono
      have : (i : ℚ) ≤ (j : ℚ) := by exact_mod_cast hij
      linarith
  · intro p hp
    obtain ⟨⟨i, hi⟩, hg⟩ := List.mem_iff_get.mp hp
    rw [← hg, (bookingCurve_fields sb capacity i hi).2]
    have hin : i + 1 ≤ sb.length := by
      have := length_bookingCurve sb capacity
      omega
    have hq : ((i : ℚ) + 1) ≤ (sb.length : ℚ) := by exact_mod_cast hin
    calc ((i : ℚ) + 1) / capacity * 100 ≤ (sb.length : ℚ) / capacity * 100 :=
          div_mul_100_mono capacity hq
      _ = 100 * (sb.length : ℚ) / capacity := by ring

/-! ## Pace-analyzer lemmas -/

theorem mem_sortedInsert {n y : ℕ} {l : List ℕ} :
    y ∈ sortedInsert n l ↔ y = n ∨ y ∈ l := by
  induction l with
  | nil => simp [sortedInsert]
  | cons m ms ih =>
      unfold sortedInsert
      split_ifs with h1 h2
      · simp [List.mem_cons]
      · subst h2
        simp [List.mem_cons]
      · simp only [List.mem_cons, ih]
        tauto

theorem mem_observedDaysAsc {y : ℕ} {l : List ℕ} :
    y ∈ observedDaysAsc l ↔ y ∈ l := by
  induction l with
  | nil => simp [observedDaysAsc]
  | cons n ns ih =>
      unfold observedDaysAsc at ih ⊢
      simp only [List.foldr_cons, mem_sortedInsert, ih, List.mem_cons]

theorem sortedInsert_ne_nil (n : ℕ) (l : List ℕ) : sortedInsert n l ≠ [] := by
  cases l with
  | nil => simp [sortedInsert]
  | cons m ms =>
      unfold sortedInsert
      split_ifs <;> simp

theorem observedDaysAsc_eq_nil {l : List ℕ} (h : observedDaysAsc l = []) : l = [] := by
  cases l with
  | nil => rfl
  | cons n ns => exact absurd h (sortedInsert_ne_nil n (observedDaysAsc ns))

/-! ## Claim C7 (corrected) -/

/-- Counterexample to C7 as stated: with one historical and one future sailing
of region `R`, each holding one booking observed 100 days out, the code's pace
target at 50 days until departure averages the curve points of *both*
sailings (`3/2`), while the mean over the historical sailing's curve points
alone — what the claim describes — is `1`. -/
theorem pace_target_counterexample :
    (paceRecordFor paceSailings paceBookings 0 futureSailingR).target_occupancy_pct = 3 / 2 ∧
    paceTarget (curveRows paceSailings paceBookings) "R" 50 = 3 / 2 ∧
    paceTargetHistoricalOnly paceSailings paceBookings 0 "R" 50 = 1 ∧
    (3 / 2 : ℚ) ≠ 1 := by
  have htgt : paceTarget (curveRows paceSailings paceBookings) "R" 50 = 3 / 2 := by
    norm_num [paceTarget, curveRows, paceSailings, paceBookings, histSailingR,
      futureSailingR, histBookingR, futureBookingR, mkSailing, mkBooking, bookingsFor,
      bookingCurve, sortByDaysDesc, insertByDaysDesc, curvePointsAux, regionCurveRows,
      observedDaysAsc, sortedInsert, closestObservedDay, pyMin, distTo, targetMeanAt,
      listMean]
  have hhist : paceTargetHistoricalOnly paceSailings paceBookings 0 "R" 50 = 1 := by
    norm_num [paceTargetHistoricalOnly, paceTarget, curveRows, paceSailings, paceBookings,
      histSailingR, futureSailingR, histBookingR, futureBookingR, mkSailing, mkBooking,
      bookingsFor, bookingCurve, sortByDaysDesc, insertByDaysDesc, curvePointsAux,
      regionCurveRows, observedDaysAsc, sortedInsert, closestObservedDay, pyMin, distTo,
      targetMeanAt, listMean]
  refine ⟨?_, htgt, hhist, by norm_num⟩
  simp only [paceRecordFor]
  rw [show futureSailingR.itinerary_region = "R" from rfl,
    show futureSailingR.departure_date - 0 = 50 from rfl, htgt]
  rw [roundTo, show ((3 : ℚ) / 2) * 10 ^ 1 = ((15 : ℤ) : ℚ) by norm_num, round_intCast]
  norm_num

/-- C7 amended: the pace target for a future sailing is the mean
percent-filled over the curve points of *all* sailings of its region (future
sailings with bookings included, not only historical ones) at the observed
days-to-departure value minimizing the absolute difference to the sailing's
days-until-departure; a region with no curve points at all yields the flat
default 50.0, and the pace delta is the (rounded) difference between current
occupancy and that target. -/
theorem pace_target_from_all_sailings (S : List Sailing) (B : List Booking)
    (ref : ℤ) (s : Sailing) :
    (paceRecordFor S B ref s).pace_delta =
      roundTo 1 ((paceRecordFor S B ref s).current_occupancy_pct -
        paceTarget (curveRows S B) s.itinerary_region (s.departure_date - ref)) ∧
    (paceRecordFor S B ref s).target_occupancy_pct =
      roundTo 1 (paceTarget (curveRows S B) s.itinerary_region (s.departure_date - ref)) ∧
    (regionCurveRows (curveRows S B) s.itinerary_region = [] →
      paceTarget (curveRows S B) s.itinerary_region (s.departure_date - ref) = 50) ∧
    (regionCurveRows (curveRows S B) s.itinerary_region ≠ [] →
      ∃ d0, (∃ r ∈ regionCurveRows (curveRows S B) s.itinerary_region,
          r.days_to_departure = d0) ∧
        (∀ r ∈ regionCurveRows (curveRows S B) s.itinerary_region,
          distTo (s.departure_date - ref) d0 ≤
            distTo (s.departure_date - ref) r.days_to_departure) ∧
        paceTarget (curveRows S B) s.itinerary_region (s.departure_date - ref) =
          targetMeanAt (curveRows S B) s.itinerary_region d0) := by
  refine ⟨rfl, rfl, ?_, ?_⟩
  · intro h
    simp [paceTarget, h, observedDaysAsc]
  · intro h
    have hdne : (regionCurveRows (curveRows S B) s.itinerary_region).map
        (fun r => r.days_to_departure) ≠ [] := by
      simpa using h
    cases hobs : observedDaysAsc ((regionCurveRows (curveRows S B) s.itinerary_region).map
        (fun r => r.days_to_departure)) with
    | nil => exact absurd (observedDaysAsc_eq_nil hobs) hdne
    | cons d0 rest =>
        refine ⟨closestObservedDay (s.departure_date - ref) d0 rest, ?_, ?_, ?_⟩
        · have hmem : closestObservedDay (s.departure_date - ref) d0 rest ∈ d0 :: rest :=
            pyMin_mem (distTo (s.departure_date - ref)) rest d0
          rw [← hobs] at hmem
          have hmem2 := mem_observedDaysAsc.mp hmem
          obtain ⟨r, hr, hrd⟩ := List.mem_map.mp hmem2
          exact ⟨r, hr, hrd⟩
        · intro r hr
          have h1 : r.days_to_departure ∈
              (regionCurveRows (curveRows S B) s.itinerary_region).map
                (fun r => r.days_to_departure) :=
            List.mem_map_of_mem _ hr
          have h2 := mem_observedDaysAsc.mpr h1
          rw [hobs] at h2
          exact pyMin_le (distTo (s.departure_date - ref)) rest d0 r.days_to_departure h2
        · simp only [paceTarget]
          rw [hobs]

end RevenueStudio
